import Mathlib

/-!
# Shallow embedding of the wpaste named-record store (main.go)

This file embeds the core of the wpaste service — the `WpasteFile` record, its
gob serialization, the lifecycle predicates (`Expired`, `AllowAccess`,
`AllowEdit`), the bbolt-backed store operations (`Save`, `Delete`,
`OpenWpasteByName`, `CheckUnique`), the HTTP handlers (`UploadFile`,
`SendFile`, `EditFile`, `DeleteFile`) and one tick of the background reaper
(`AutoDeleter`) — and proves the specification claims about them.

Modelling conventions, each justified against the Go source:

* Go `int64` values (timestamps, durations) are `Int`; every arithmetic
  operation the source performs on them that can overflow is wrapped through
  `wrap64`, which is two's-complement wraparound (Go signed arithmetic is
  defined to wrap).  Go `uint64` ids are `Nat`: the only producer is bbolt's
  `NextSequence`, which starts at 1 and increments, so ids never approach
  `2^64` and no wrap is modelled there.
* The bbolt bucket `"files"` is modelled by `DB`: a sequence counter `seq`
  and a map `files : Nat → StoredVal` from id to stored bytes.  The source
  only ever uses decimal strings of ids as keys, so `Nat` keys are faithful.
  Stored bytes are abstracted by `StoredVal`: `empty` (key absent — bbolt
  `Get` returns nil, `len(v) == 0`), `corrupt` (bytes on which gob decoding
  fails), or `valid g` (bytes that gob-decode to the exported fields `g`).
* `encoding/gob` encodes only the *exported* fields of a struct; the field
  `id` of `WpasteFile` is unexported, so `Serialize` produces a `GobWpaste`
  holding the seven exported fields and `DeserializeWpasteFile` returns a
  record with `id = 0` (the Go zero value).  This is visible in the source:
  `OpenWpasteByName` re-installs the id from the bucket key after decoding,
  and `Save` tests `w.id == 0` to decide whether to draw a sequence number.
* Bucket iteration (`Cursor` in `CheckUnique`, `ForEach` in `AutoDeleter`)
  is modelled by `bucketList`, which enumerates ids `1..seq` in ascending
  order; absent ids carry `StoredVal.empty`, which both consumers skip
  (`AutoDeleter` via its explicit `len(v) == 0` check, `CheckUnique` because
  gob decoding of empty input fails and the error branch continues).  bbolt
  itself iterates present keys in byte order of the decimal strings; the
  properties proved here do not depend on which enumeration order is used.
* Transaction begin/commit failures and gob *encoding* failures (impossible
  for this struct) are not modelled; the corresponding 500 branches of the
  handlers are reachable in the model only through the lookup path.
* `net/http` response semantics: the first `WriteHeader` fixes the status
  code and later calls are ignored.  `EditFile` exploits this: its
  missing-`f` branch writes a 400 header *without returning* (the source has
  no `return` on that branch, unlike every sibling branch), after which the
  handler keeps executing.  Handlers therefore thread an `Option Nat`
  "status already written" value where needed.
* `time.Now().UTC().UnixNano()` is a parameter `now : Int` of each operation
  that reads the clock.
* `RandomString` in `UploadFile` is modelled by passing the stream of
  generated candidate names as a `List String`; the retry loop becomes
  `List.find?`, and exhaustion of the modelled stream (the Go loop spinning
  forever) surfaces as `Option.none` for the whole request.
-/

/-- Two's-complement wraparound to the signed 64-bit range, the semantics of
Go `int64` addition and multiplication. -/
def wrap64 (x : Int) : Int := (x + 2 ^ 63) % 2 ^ 64 - 2 ^ 63

/-- The exported fields of `WpasteFile`, i.e. exactly what `encoding/gob`
serializes (gob skips the unexported `id`). -/
structure GobWpaste where
  Name : String
  Data : String
  AccessPassword : String
  EditPassword : String
  Created : Int
  ExpiresAfter : Int
  Edited : Int
deriving DecidableEq, Repr

/-- `WpasteFile` from main.go: the unexported store id plus the exported
payload and metadata fields. -/
structure WpasteFile where
  id : Nat
  Name : String
  Data : String
  AccessPassword : String
  EditPassword : String
  Created : Int
  ExpiresAfter : Int
  Edited : Int
deriving DecidableEq, Repr

/-- A value stored under a key of the `"files"` bucket, abstracting the byte
string: absent/zero-length, gob-undecodable, or decodable to `g`. -/
inductive StoredVal where
  | empty : StoredVal
  | corrupt : StoredVal
  | valid : GobWpaste → StoredVal
deriving DecidableEq, Repr

/-- `Serialize`: gob-encode a `WpasteFile`.  Encoding this struct cannot fail
(all fields are strings and integers), so the model is total; gob encodes
only the exported fields, dropping `id`. -/
def Serialize (w : WpasteFile) : GobWpaste :=
  { Name := w.Name, Data := w.Data, AccessPassword := w.AccessPassword,
    EditPassword := w.EditPassword, Created := w.Created,
    ExpiresAfter := w.ExpiresAfter, Edited := w.Edited }

/-- The `WpasteFile` produced by gob-decoding `g`: exported fields from the
bytes, unexported `id` left at its Go zero value `0`. -/
def fromGob (g : GobWpaste) : WpasteFile :=
  { id := 0, Name := g.Name, Data := g.Data, AccessPassword := g.AccessPassword,
    EditPassword := g.EditPassword, Created := g.Created,
    ExpiresAfter := g.ExpiresAfter, Edited := g.Edited }

/-- `DeserializeWpasteFile`: gob-decode stored bytes.  Decoding fails on
zero-length input (EOF) and on corrupt bytes. -/
def DeserializeWpasteFile : StoredVal → Except Unit WpasteFile
  | StoredVal.valid g => Except.ok (fromGob g)
  | _ => Except.error ()

/-- `Expired`: true iff `ExpiresAfter != 0` and `now` exceeds the Go
`int64` sum `Created + ExpiresAfter` (which wraps on overflow). -/
def Expired (w : WpasteFile) (now : Int) : Bool :=
  if w.ExpiresAfter ≠ 0 then
    decide (now > wrap64 (w.Created + w.ExpiresAfter))
  else
    false

/-- `AllowAccess`: true iff the access password is empty or the supplied
password matches it. -/
def AllowAccess (w : WpasteFile) (password : String) : Bool :=
  if w.AccessPassword.length = 0 ∨ password = w.AccessPassword then true else false

/-- `AllowEdit`: false when the edit password is empty or the supplied
password differs from it; true otherwise. -/
def AllowEdit (w : WpasteFile) (password : String) : Bool :=
  if w.EditPassword.length = 0 ∨ password ≠ w.EditPassword then false else true

/-- The `"files"` bucket of the bbolt database: the monotonic sequence
counter and the stored value under each id.  Only ids `1..seq` can ever be
non-empty, since every key the source writes comes from `NextSequence`. -/
structure DB where
  seq : Nat
  files : Nat → StoredVal

/-- `Save`: serialize, draw a fresh sequence number iff `id == 0`, and put
the bytes under the id's key. -/
def Save (db : DB) (w : WpasteFile) : DB :=
  let id := if w.id = 0 then db.seq + 1 else w.id
  let seq := if w.id = 0 then db.seq + 1 else db.seq
  { seq := seq,
    files := fun i => if i = id then StoredVal.valid (Serialize w) else db.files i }

/-- `WpasteFile.Delete`: remove the record's key from the bucket. -/
def DeleteWpaste (db : DB) (id : Nat) : DB :=
  { db with files := fun i => if i = id then StoredVal.empty else db.files i }

/-- The descending scan of `OpenWpasteByName`, from id `n` down to 1:
skip absent keys (`len(v) == 0`), abort with the error on a failed
gob decode, and return the first record whose `Name` matches (with the
id re-installed from the key). -/
def OpenWpasteScan (db : DB) (name : String) : Nat → Except Unit (Option WpasteFile)
  | 0 => Except.ok none
  | Nat.succ i =>
    match db.files (i + 1) with
    | StoredVal.empty => OpenWpasteScan db name i
    | StoredVal.corrupt => Except.error ()
    | StoredVal.valid g =>
      if g.Name = name then Except.ok (some { fromGob g with id := i + 1 })
      else OpenWpasteScan db name i

/-- `OpenWpasteByName`: scan from the current sequence value downward. -/
def OpenWpasteByName (db : DB) (name : String) : Except Unit (Option WpasteFile) :=
  OpenWpasteScan db name db.seq

/-- The key/value pairs a bucket cursor or `ForEach` presents, in ascending
id order (see the modelling notes on iteration order). -/
def bucketList (db : DB) : List (Nat × StoredVal) :=
  (List.range db.seq).map (fun k => (k + 1, db.files (k + 1)))

/-- The cursor loop of `CheckUnique`, specialised to the only field selector
the source ever passes (`"Name"`, looked up by reflection in Go): skip
entries that fail to decode, return `false` on the first equal value. -/
def CheckUniqueScan (value : String) : List (Nat × StoredVal) → Bool
  | [] => true
  | (_, v) :: rest =>
    match DeserializeWpasteFile v with
    | Except.error _ => CheckUniqueScan value rest
    | Except.ok f => if f.Name = value then false else CheckUniqueScan value rest

/-- `CheckUnique` for the `Name` field: true iff no decodable stored entry
already carries the value. -/
def CheckUnique (db : DB) (value : String) : Bool :=
  CheckUniqueScan value (bucketList db)

/-- The relevant fields of an HTTP request: `ContentLength` and the form /
query fields the handlers read (`f`, `name`, `e`, `ap`, `ep`); `pathName`
is the `{id}` path variable. -/
structure Request where
  contentLength : Int
  f : String
  /-- the `name` form field of POST, also standing in for the `{id}` path
  variable of GET/PUT/DELETE. -/
  name : String
  e : String
  ap : String
  ep : String

/-- Go `strconv.ParseInt(s, 10, 64)`: optional sign, at least one decimal
digit, result within the signed 64-bit range; `none` on any failure. -/
def parseInt64 (s : String) : Option Int :=
  let core : Bool × List Char :=
    match s.data with
    | '-' :: rest => (true, rest)
    | '+' :: rest => (false, rest)
    | l => (false, l)
  if core.2 = [] then none
  else if core.2.all Char.isDigit then
    let n : Nat := core.2.foldl (fun acc c => acc * 10 + (c.toNat - 48)) 0
    let v : Int := if core.1 then -(n : Int) else (n : Int)
    if -(2 ^ 63) ≤ v ∧ v ≤ 2 ^ 63 - 1 then some v else none
  else none

/-- The tail of `UploadFile` after the name has been chosen: parse the
optional expiry `e` (422 on non-numeric, 400 on negative, nanosecond
conversion wraps as Go `int64` multiplication does), fill in the passwords,
and save. -/
def UploadWithName (db : DB) (req : Request) (now : Int) (name : String) :
    Nat × String × DB :=
  if req.e.length ≠ 0 then
    match parseInt64 req.e with
    | none => (422, "422 - Invalid time format", db)
    | some t =>
      if t < 0 then (400, "400 - Time shold be positive", db)
      else
        let wpaste : WpasteFile :=
          { id := 0, Name := name, Data := req.f, AccessPassword := req.ap,
            EditPassword := req.ep, Created := now,
            ExpiresAfter := wrap64 (t * 1000000000), Edited := 0 }
        (200, name, Save db wpaste)
  else
    let wpaste : WpasteFile :=
      { id := 0, Name := name, Data := req.f, AccessPassword := req.ap,
        EditPassword := req.ep, Created := now, ExpiresAfter := 0, Edited := 0 }
    (200, name, Save db wpaste)

/-- `UploadFile` (POST `/`).  Returns the first written status code, the
response body, and the resulting store; `none` models the Go handler
spinning forever because the supplied stream `gen` of `RandomString(3)`
outputs never produces a name passing `CheckUnique`. -/
def UploadFile (db : DB) (req : Request) (now : Int) (gen : List String) :
    Option (Nat × String × DB) :=
  if req.contentLength > 2 * 2 ^ 20 then
    some (413, "413 - Max content size is 2MiB", db)
  else if req.f.length = 0 then
    some (400, "400 - \x22f\x22 field required", db)
  else if req.name.length = 0 then
    match gen.find? (fun n => CheckUnique db n) with
    | none => none
    | some name => some (UploadWithName db req now name)
  else if ¬ CheckUnique db req.name then
    some (409, "409 - This filename already taken!", db)
  else
    some (UploadWithName db req now req.name)

/-- `SendFile` (GET `/{name}`).  Pure read: returns status and body. -/
def SendFile (db : DB) (req : Request) (now : Int) : Nat × String :=
  match OpenWpasteByName db req.name with
  | Except.error _ => (500, "500 - Something bad happened")
  | Except.ok none => (404, "404 - File not found")
  | Except.ok (some file) =>
    if Expired file now then (410, "410 - File is no longer available")
    else if ¬ AllowAccess file req.ap then (401, "401 - Invalid password")
    else (200, file.Data)

/-- `EditFile` (PUT `/{name}`).  The missing-`f` branch writes a 400 header
but has no `return` in the source, so execution continues; `written` carries
the already-written status (`net/http` ignores later `WriteHeader` calls),
and the final component is the resulting store. -/
def EditFile (db : DB) (req : Request) (now : Int) : Nat × DB :=
  if req.contentLength > 10 * 2 ^ 20 then (413, db)
  else
    let written : Option Nat := if req.f.length = 0 then some 400 else none
    match OpenWpasteByName db req.name with
    | Except.error _ => (written.getD 500, db)
    | Except.ok none => (written.getD 404, db)
    | Except.ok (some file) =>
      if Expired file now then (written.getD 410, db)
      else if ¬ AllowEdit file req.ep then (written.getD 401, db)
      else
        let file : WpasteFile := { file with Data := req.f, Edited := now }
        (written.getD 200, Save db file)

/-- `DeleteFile` (DELETE `/{name}`): existence and edit-authorization checks
only — the expiration predicate is never consulted. -/
def DeleteFile (db : DB) (req : Request) : Nat × DB :=
  match OpenWpasteByName db req.name with
  | Except.error _ => (500, db)
  | Except.ok none => (404, db)
  | Except.ok (some file) =>
    if ¬ AllowEdit file req.ep then (401, db)
    else (200, DeleteWpaste db file.id)

/-- The `ForEach` body of `AutoDeleter`: skip zero-length values; a failed
gob decode makes the callback return the error, which stops bbolt's
iteration (ids collected before the failure are kept); otherwise collect the
key when `ExpiresAfter != 0 && now > Created+ExpiresAfter+add` (Go `int64`
sums, left-associated, wrapping). -/
def AutoDeleterScan (now add : Int) : List (Nat × StoredVal) → List Nat
  | [] => []
  | (k, v) :: rest =>
    match v with
    | StoredVal.empty => AutoDeleterScan now add rest
    | StoredVal.corrupt => []
    | StoredVal.valid g =>
      if g.ExpiresAfter ≠ 0 ∧ now > wrap64 (wrap64 (g.Created + g.ExpiresAfter) + add) then
        k :: AutoDeleterScan now add rest
      else AutoDeleterScan now add rest

/-- One tick of `AutoDeleter`: read-only scan collecting `toDelete`, then
(iff non-empty) one writable transaction deleting the collected keys. -/
def AutoDeleterTick (db : DB) (now add : Int) : DB :=
  let toDelete := AutoDeleterScan now add (bucketList db)
  if toDelete = [] then db
  else { db with files := fun i => if i ∈ toDelete then StoredVal.empty else db.files i }

/-! ## Helper lemmas -/

theorem string_length_eq_zero (s : String) : s.length = 0 ↔ s = "" := by
  constructor
  · intro h
    cases s with
    | mk data =>
      simp [String.length] at h
      simp [h]
  · intro h; simp [h]

theorem wrap64_eq_self (x : Int) (h1 : -(2 ^ 63) ≤ x) (h2 : x < 2 ^ 63) :
    wrap64 x = x := by
  unfold wrap64
  have h3 : (0 : Int) ≤ x + 2 ^ 63 := by linarith
  have h4 : x + 2 ^ 63 < 2 ^ 64 := by
    have : (2 : Int) ^ 64 = 2 ^ 63 + 2 ^ 63 := by norm_num
    linarith
  rw [Int.emod_eq_of_lt h3 h4]
  ring

/-! ## C3: the edit-authorization predicate -/

/-- C3: `AllowEdit` returns true iff the record's edit password is non-empty
and the supplied password equals it; in particular a record whose edit
password is the empty string refuses every supplied password. -/
theorem allowEdit_spec (w : WpasteFile) (p : String) :
    (AllowEdit w p = true ↔ (w.EditPassword ≠ "" ∧ p = w.EditPassword)) ∧
    (w.EditPassword = "" → AllowEdit w p = false) := by
  constructor
  · unfold AllowEdit
    by_cases hc : w.EditPassword.length = 0 ∨ p ≠ w.EditPassword
    · rw [if_pos hc]
      constructor
      · intro hfalse; exact absurd hfalse (by simp)
      · rintro ⟨hne, heq⟩
        exfalso
        rcases hc with hlen | hnep
        · exact hne ((string_length_eq_zero _).mp hlen)
        · exact hnep heq
    · rw [if_neg hc]
      push_neg at hc
      exact ⟨fun _ => ⟨fun he => hc.1 ((string_length_eq_zero _).mpr he), hc.2⟩, fun _ => rfl⟩
  · intro he
    unfold AllowEdit
    rw [if_pos (Or.inl ((string_length_eq_zero _).mpr he))]

/-- Witness for C3 at a concrete record and password. -/
theorem allowEdit_spec_witness :
    AllowEdit { id := 0, Name := "n", Data := "d", AccessPassword := "",
                EditPassword := "pw", Created := 0, ExpiresAfter := 0, Edited := 0 } "pw" = true ∧
    AllowEdit { id := 0, Name := "n", Data := "d", AccessPassword := "",
                EditPassword := "", Created := 0, ExpiresAfter := 0, Edited := 0 } "" = false := by
  constructor
  · exact (allowEdit_spec _ "pw").1.mpr ⟨by decide, rfl⟩
  · exact (allowEdit_spec _ "").2 rfl

/-! ## C5: serialization round-trip -/

/-- C5 counterexample: gob skips the unexported `id`, so deserializing the
serialization of a record whose `id` is `5` does not return the record —
the `id` comes back as `0`.  The claim "equal in all Record fields,
including the id" is therefore false at this input. -/
theorem serialize_roundtrip_id_cex :
    DeserializeWpasteFile (StoredVal.valid (Serialize
        { id := 5, Name := "n", Data := "d", AccessPassword := "a",
          EditPassword := "e", Created := 1, ExpiresAfter := 0, Edited := 0 })) ≠
      Except.ok { id := 5, Name := "n", Data := "d", AccessPassword := "a",
                  EditPassword := "e", Created := 1, ExpiresAfter := 0, Edited := 0 } ∧
    DeserializeWpasteFile (StoredVal.valid (Serialize
        { id := 5, Name := "n", Data := "d", AccessPassword := "a",
          EditPassword := "e", Created := 1, ExpiresAfter := 0, Edited := 0 })) =
      Except.ok { id := 0, Name := "n", Data := "d", AccessPassword := "a",
                  EditPassword := "e", Created := 1, ExpiresAfter := 0, Edited := 0 } := by
  refine ⟨fun h => ?_, rfl⟩
  have h2 := Except.ok.inj h
  simp [Serialize, DeserializeWpasteFile, fromGob] at h2

/-- C5 (amended): the round-trip restores every exported field exactly —
name, data, both passwords, `Created`, the `ExpiresAfter = 0` "never
expires" sentinel and the `Edited = 0` "never edited" sentinel included —
while the unexported `id` is not serialized and deserializes to `0`
(callers restore it from the store key). -/
theorem serialize_roundtrip (w : WpasteFile) :
    DeserializeWpasteFile (StoredVal.valid (Serialize w)) =
      Except.ok { w with id := 0 } := rfl

/-! ## C6: the expiration predicate -/

/-- C6 counterexample: `Expired` computes `Created + ExpiresAfter` in Go
`int64` arithmetic, which wraps: at `Created = ExpiresAfter = 2^62` the sum
overflows to `-2^63`, so a read at `now = 2^62` — which satisfies
`now ≤ createdAt + expiresAfter` mathematically — is reported expired,
contradicting "not expired at any time ≤ createdAt + N". -/
theorem expired_overflow_cex :
    Expired { id := 0, Name := "n", Data := "d", AccessPassword := "",
              EditPassword := "", Created := 2 ^ 62, ExpiresAfter := 2 ^ 62,
              Edited := 0 } (2 ^ 62) = true ∧
    (2 ^ 62 : Int) ≤ 2 ^ 62 + 2 ^ 62 := by
  constructor
  · decide
  · norm_num

/-- C6 (amended): whenever the `int64` sum `Created + ExpiresAfter` does not
overflow, a record is reported expired iff `ExpiresAfter ≠ 0` and
`now > Created + ExpiresAfter`; and a record with `ExpiresAfter = 0` is
never reported expired, at any time whatsoever. -/
theorem expired_spec :
    (∀ (w : WpasteFile) (now : Int),
        -(2 ^ 63) ≤ w.Created + w.ExpiresAfter → w.Created + w.ExpiresAfter < 2 ^ 63 →
        (Expired w now = true ↔ (w.ExpiresAfter ≠ 0 ∧ now > w.Created + w.ExpiresAfter))) ∧
    (∀ (w : WpasteFile) (now : Int), w.ExpiresAfter = 0 → Expired w now = false) := by
  constructor
  · intro w now h1 h2
    unfold Expired
    rw [wrap64_eq_self _ h1 h2]
    by_cases hz : w.ExpiresAfter = 0
    · simp [hz]
    · simp [hz]
  · intro w now hz
    unfold Expired
    simp [hz]

/-- Witness for C6 at concrete records: a record with `ExpiresAfter = 1` is
expired at `now = 2` and a record with `ExpiresAfter = 0` is not expired
even at a huge `now`. -/
theorem expired_spec_witness :
    (Expired { id := 0, Name := "n", Data := "d", AccessPassword := "",
               EditPassword := "", Created := 0, ExpiresAfter := 1, Edited := 0 } 2 = true ↔
      ((1 : Int) ≠ 0 ∧ (2 : Int) > 0 + 1)) ∧
    Expired { id := 0, Name := "n", Data := "d", AccessPassword := "",
              EditPassword := "", Created := 0, ExpiresAfter := 0, Edited := 0 } 1000000 = false := by
  constructor
  · exact expired_spec.1 _ 2 (by norm_num) (by norm_num)
  · exact expired_spec.2 _ 1000000 rfl

/-! ## C4: lookup by name -/

theorem openWpasteScan_finds (db : DB) (name : String) (i : Nat) (g : GobWpaste) :
    ∀ n, 0 < i → i ≤ n → db.files i = StoredVal.valid g → g.Name = name →
      (∀ j, i < j → j ≤ n → db.files j = StoredVal.empty ∨
        ∃ g', db.files j = StoredVal.valid g' ∧ g'.Name ≠ name) →
      OpenWpasteScan db name n = Except.ok (some { fromGob g with id := i }) := by
  intro n
  induction n with
  | zero => intro hpos hle; omega
  | succ n ih =>
    intro hpos hle hval hname habove
    by_cases hi : i = n + 1
    · subst hi
      simp [OpenWpasteScan, hval, hname]
    · have hle' : i ≤ n := by omega
      have h1 := habove (n + 1) (by omega) (le_refl _)
      have hrest : ∀ j, i < j → j ≤ n → db.files j = StoredVal.empty ∨
          ∃ g', db.files j = StoredVal.valid g' ∧ g'.Name ≠ name :=
        fun j hj1 hj2 => habove j hj1 (by omega)
      rcases h1 with hemp | ⟨g', hg', hne⟩
      · rw [OpenWpasteScan, hemp]
        exact ih hpos hle' hval hname hrest
      · rw [OpenWpasteScan, hg']
        simp only [if_neg hne]
        exact ih hpos hle' hval hname hrest

theorem openWpasteScan_aborts (db : DB) (name : String) (i : Nat) :
    ∀ n, 0 < i → i ≤ n → db.files i = StoredVal.corrupt →
      (∀ j, i < j → j ≤ n → db.files j = StoredVal.empty ∨
        ∃ g', db.files j = StoredVal.valid g' ∧ g'.Name ≠ name) →
      OpenWpasteScan db name n = Except.error () := by
  intro n
  induction n with
  | zero => intro hpos hle; omega
  | succ n ih =>
    intro hpos hle hval habove
    by_cases hi : i = n + 1
    · subst hi
      rw [OpenWpasteScan, hval]
    · have hle' : i ≤ n := by omega
      have h1 := habove (n + 1) (by omega) (le_refl _)
      have hrest : ∀ j, i < j → j ≤ n → db.files j = StoredVal.empty ∨
          ∃ g', db.files j = StoredVal.valid g' ∧ g'.Name ≠ name :=
        fun j hj1 hj2 => habove j hj1 (by omega)
      rcases h1 with hemp | ⟨g', hg', hne⟩
      · rw [OpenWpasteScan, hemp]
        exact ih hpos hle' hval hrest
      · rw [OpenWpasteScan, hg']
        simp only [if_neg hne]
        exact ih hpos hle' hval hrest

/-- C4: `OpenWpasteByName` scans from the most recently assigned id
(`seq`) backward and returns the first matching record, id restored from
the key — so on a duplicate name the newest record wins; and when a
corrupt entry sits above every match, the lookup aborts with a storage
error instead of skipping it. -/
theorem openWpasteByName_spec :
    (∀ (db : DB) (name : String) (i : Nat) (g : GobWpaste),
        0 < i → i ≤ db.seq → db.files i = StoredVal.valid g → g.Name = name →
        (∀ j, i < j → j ≤ db.seq → db.files j = StoredVal.empty ∨
          ∃ g', db.files j = StoredVal.valid g' ∧ g'.Name ≠ name) →
        OpenWpasteByName db name = Except.ok (some { fromGob g with id := i })) ∧
    (∀ (db : DB) (name : String) (i : Nat),
        0 < i → i ≤ db.seq → db.files i = StoredVal.corrupt →
        (∀ j, i < j → j ≤ db.seq → db.files j = StoredVal.empty ∨
          ∃ g', db.files j = StoredVal.valid g' ∧ g'.Name ≠ name) →
        OpenWpasteByName db name = Except.error ()) := by
  constructor
  · intro db name i g hpos hle hval hname habove
    exact openWpasteScan_finds db name i g db.seq hpos hle hval hname habove
  · intro db name i hpos hle hval habove
    exact openWpasteScan_aborts db name i db.seq hpos hle hval habove

/-- Witness for C4: a store with records named "a" (id 1) and "b" (id 3)
resolves "a", and a store whose corrupt entry (id 1) sits below only
non-matching entries makes the lookup for "a" abort with the error. -/
theorem openWpasteByName_spec_witness :
    OpenWpasteByName
        { seq := 3,
          files := fun i =>
            if i = 1 then StoredVal.valid ⟨"a", "d1", "", "", 0, 0, 0⟩
            else if i = 3 then StoredVal.valid ⟨"b", "d3", "", "", 0, 0, 0⟩
            else StoredVal.empty } "a" =
      Except.ok (some ⟨1, "a", "d1", "", "", 0, 0, 0⟩) ∧
    OpenWpasteByName
        { seq := 2,
          files := fun i =>
            if i = 1 then StoredVal.corrupt
            else if i = 2 then StoredVal.valid ⟨"b", "d2", "", "", 0, 0, 0⟩
            else StoredVal.empty } "a" =
      Except.error () := by
  constructor
  · exact openWpasteByName_spec.1 _ "a" 1 ⟨"a", "d1", "", "", 0, 0, 0⟩
      (by decide) (by decide) rfl rfl
      (by
        intro j h1 h2
        have h3 : j ≤ 3 := h2
        have hj : j = 2 ∨ j = 3 := by omega
        rcases hj with rfl | rfl
        · exact Or.inl rfl
        · exact Or.inr ⟨_, rfl, by decide⟩)
  · exact openWpasteByName_spec.2 _ "a" 1 (by decide) (by decide) rfl
      (by
        intro j h1 h2
        have h3 : j ≤ 2 := h2
        have hj : j = 2 := by omega
        subst hj
        exact Or.inr ⟨_, rfl, by decide⟩)

/-! ## C7: duplicate-name uploads conflict -/

theorem checkUniqueScan_mem_false (value : String) :
    ∀ (l : List (Nat × StoredVal)) (k : Nat) (g : GobWpaste),
      (k, StoredVal.valid g) ∈ l → g.Name = value → CheckUniqueScan value l = false := by
  intro l
  induction l with
  | nil => intro k g hmem _; exact absurd hmem (List.not_mem_nil _)
  | cons hd tl ih =>
    intro k g hmem hname
    rcases List.mem_cons.mp hmem with heq | htl
    · rw [← heq]
      simp [CheckUniqueScan, DeserializeWpasteFile, fromGob, hname]
    · rcases hd with ⟨k', v⟩
      cases v with
      | empty => simpa [CheckUniqueScan, DeserializeWpasteFile] using ih k g htl hname
      | corrupt => simpa [CheckUniqueScan, DeserializeWpasteFile] using ih k g htl hname
      | valid g' =>
        by_cases hn : (fromGob g').Name = value
        · simp [CheckUniqueScan, DeserializeWpasteFile, hn]
        · simpa [CheckUniqueScan, DeserializeWpasteFile, hn] using ih k g htl hname

theorem mem_bucketList (db : DB) (i : Nat) (h1 : 0 < i) (h2 : i ≤ db.seq) :
    (i, db.files i) ∈ bucketList db := by
  unfold bucketList
  apply List.mem_map.mpr
  refine ⟨i - 1, List.mem_range.mpr (by omega), ?_⟩
  have hi : i - 1 + 1 = i := by omega
  rw [hi]

/-- C7: an upload (within the size limit and with a payload) whose explicit
name equals the name of a record already stored fails with 409 and returns
the store unchanged — nothing is overwritten, nothing is created. -/
theorem uploadFile_conflict (db : DB) (req : Request) (now : Int) (gen : List String)
    (i : Nat) (g : GobWpaste)
    (hcl : req.contentLength ≤ 2 * 2 ^ 20) (hf : req.f.length ≠ 0)
    (hn : req.name.length ≠ 0)
    (hpos : 0 < i) (hle : i ≤ db.seq) (hval : db.files i = StoredVal.valid g)
    (hname : g.Name = req.name) :
    UploadFile db req now gen = some (409, "409 - This filename already taken!", db) := by
  have hu : CheckUnique db req.name = false := by
    have hmem := mem_bucketList db i hpos hle
    rw [hval] at hmem
    exact checkUniqueScan_mem_false req.name (bucketList db) i g hmem hname
  unfold UploadFile
  rw [if_neg (not_lt.mpr hcl), if_neg hf, if_neg hn, if_pos]
  rw [hu]
  exact Bool.false_ne_true

/-- Witness for C7: uploading `name = "same"` into a store already holding a
record named "same" yields 409 and the very same store. -/
theorem uploadFile_conflict_witness :
    UploadFile
        { seq := 1,
          files := fun i =>
            if i = 1 then StoredVal.valid ⟨"same", "old", "", "", 0, 0, 0⟩
            else StoredVal.empty }
        { contentLength := 10, f := "new", name := "same", e := "", ap := "", ep := "" }
        7 [] =
      some (409, "409 - This filename already taken!",
        { seq := 1,
          files := fun i =>
            if i = 1 then StoredVal.valid ⟨"same", "old", "", "", 0, 0, 0⟩
            else StoredVal.empty }) := by
  exact uploadFile_conflict _ _ 7 [] 1 ⟨"same", "old", "", "", 0, 0, 0⟩
    (by decide) (by decide) (by decide) (by decide) (by decide) rfl rfl

/-! ## C2: the reaper sweep -/

/-- The per-entry deletion criterion of the reaper: a decodable entry with
`ExpiresAfter != 0 && now > Created+ExpiresAfter+add` (Go `int64` sums,
left-associated, wrapping). -/
def reapDue (now add : Int) (e : Nat × StoredVal) : Bool :=
  match e.2 with
  | StoredVal.valid g =>
    decide (g.ExpiresAfter ≠ 0 ∧ now > wrap64 (wrap64 (g.Created + g.ExpiresAfter) + add))
  | _ => false

theorem autoDeleterScan_eq (now add : Int) :
    ∀ l : List (Nat × StoredVal),
      AutoDeleterScan now add l =
        ((l.takeWhile (fun e => decide (e.2 ≠ StoredVal.corrupt))).filter
          (reapDue now add)).map Prod.fst := by
  intro l
  induction l with
  | nil => rfl
  | cons hd tl ih =>
    rcases hd with ⟨k, v⟩
    cases v with
    | empty =>
      simp only [AutoDeleterScan, List.takeWhile_cons, List.filter_cons]
      simpa [reapDue] using ih
    | corrupt =>
      simp [AutoDeleterScan, List.takeWhile_cons]
    | valid g =>
      by_cases hc : g.ExpiresAfter ≠ 0 ∧
          now > wrap64 (wrap64 (g.Created + g.ExpiresAfter) + add)
      · simp only [AutoDeleterScan, List.takeWhile_cons, List.filter_cons]
        simp [reapDue, hc, ih]
      · simp only [AutoDeleterScan, List.takeWhile_cons, List.filter_cons]
        simp [reapDue, hc, ih]

/-- C2 (amended): on a tick, zero-length entries are skipped, but an entry
that fails to deserialize *stops* the scan — the collected ids are exactly
the due entries in the portion of the iteration *before* the first corrupt
entry (so when no entry is corrupt, exactly the due entries) — and the tick
then deletes exactly the collected ids, leaving everything else and the
sequence counter untouched. -/
theorem autoDeleter_spec (db : DB) (now add : Int) :
    AutoDeleterScan now add (bucketList db) =
      (((bucketList db).takeWhile (fun e => decide (e.2 ≠ StoredVal.corrupt))).filter
        (reapDue now add)).map Prod.fst ∧
    (∀ i, (AutoDeleterTick db now add).files i =
      if i ∈ AutoDeleterScan now add (bucketList db) then StoredVal.empty
      else db.files i) ∧
    (AutoDeleterTick db now add).seq = db.seq := by
  refine ⟨autoDeleterScan_eq now add _, ?_, ?_⟩
  · intro i
    unfold AutoDeleterTick
    by_cases h : AutoDeleterScan now add (bucketList db) = []
    · simp [h]
    · simp [h]
  · unfold AutoDeleterTick
    by_cases h : AutoDeleterScan now add (bucketList db) = [] <;> simp [h]

/-- C2 counterexample: with entry 1 corrupt and entry 2 valid, past expiry
and past the grace period (`ExpiresAfter = 1`, `now = 100`, grace `add = 1`,
so `now > Created + ExpiresAfter + grace` and the claim says id 2 is
collected and deleted), the corrupt entry aborts the `ForEach` scan and the
tick deletes nothing: entry 2 survives. -/
theorem autoDeleter_skip_cex :
    (AutoDeleterTick
        { seq := 2,
          files := fun i =>
            if i = 1 then StoredVal.corrupt
            else if i = 2 then StoredVal.valid ⟨"n", "d", "", "", 0, 1, 0⟩
            else StoredVal.empty } 100 1).files 2 =
      StoredVal.valid ⟨"n", "d", "", "", 0, 1, 0⟩ ∧
    ((1 : Int) ≠ 0 ∧ (100 : Int) > 0 + 1 + 1) := by
  constructor
  · rfl
  · constructor
    · decide
    · norm_num

/-! ## C1: PUT with a missing payload -/

/-- C1: the missing-`f` branch of `EditFile` writes the 400 status but falls
through (the source lacks a `return` there), so a PUT with no `f` on an
existing, unexpired record with the correct edit password both reports 400
*and* overwrites the stored record: the data becomes the empty payload and
`Edited` is updated — the store is not left unchanged. -/
theorem editFile_missing_f_mutates :
    (EditFile
        { seq := 1,
          files := fun i =>
            if i = 1 then StoredVal.valid ⟨"n", "secret data", "", "p", 0, 0, 0⟩
            else StoredVal.empty }
        { contentLength := 0, f := "", name := "n", e := "", ap := "", ep := "p" }
        5).1 = 400 ∧
    (EditFile
        { seq := 1,
          files := fun i =>
            if i = 1 then StoredVal.valid ⟨"n", "secret data", "", "p", 0, 0, 0⟩
            else StoredVal.empty }
        { contentLength := 0, f := "", name := "n", e := "", ap := "", ep := "p" }
        5).2.files 1 = StoredVal.valid ⟨"n", "", "", "p", 0, 0, 5⟩ := by
  constructor
  · rfl
  · rfl

/-! ## C8: edits change only the payload and the edit timestamp -/

theorem openWpasteScan_id_pos (db : DB) (name : String) :
    ∀ n (f : WpasteFile), OpenWpasteScan db name n = Except.ok (some f) → 0 < f.id := by
  intro n
  induction n with
  | zero =>
    intro f h
    rw [OpenWpasteScan] at h
    exact absurd (Except.ok.inj h) (by simp)
  | succ n ih =>
    intro f h
    rw [OpenWpasteScan] at h
    rcases hv : db.files (n + 1) with _ | _ | g
    · rw [hv] at h; exact ih f h
    · rw [hv] at h; exact absurd h (by simp)
    · rw [hv] at h
      simp only [] at h
      by_cases hn : g.Name = name
      · rw [if_pos hn] at h
        have h2 := Option.some.inj (Except.ok.inj h)
        rw [← h2]
        exact Nat.succ_pos n
      · rw [if_neg hn] at h; exact ih f h

/-- C8: a successful edit (payload present, record found, not expired, edit
authorized) responds 200 and changes exactly the data payload and the
`Edited` timestamp of the stored record: the id keeps its key, name, both
passwords, `Created` and `ExpiresAfter` are unchanged, every other id is
untouched, and the sequence counter does not move; in general a `Save` of a
record whose id is non-zero never draws a new sequence number. -/
theorem editFile_frame (db : DB) (req : Request) (now : Int) (file : WpasteFile)
    (hcl : req.contentLength ≤ 10 * 2 ^ 20) (hf : req.f.length ≠ 0)
    (hopen : OpenWpasteByName db req.name = Except.ok (some file))
    (hexp : Expired file now = false) (hed : AllowEdit file req.ep = true) :
    (EditFile db req now).1 = 200 ∧
    (EditFile db req now).2.seq = db.seq ∧
    (EditFile db req now).2.files file.id =
      StoredVal.valid { Name := file.Name, Data := req.f,
                        AccessPassword := file.AccessPassword,
                        EditPassword := file.EditPassword, Created := file.Created,
                        ExpiresAfter := file.ExpiresAfter, Edited := now } ∧
    (∀ j, j ≠ file.id → (EditFile db req now).2.files j = db.files j) ∧
    (∀ w : WpasteFile, w.id ≠ 0 → (Save db w).seq = db.seq) := by
  have hid : 0 < file.id := openWpasteScan_id_pos db req.name db.seq file hopen
  have hid0 : ¬ file.id = 0 := by omega
  have heval : EditFile db req now =
      (200, Save db { file with Data := req.f, Edited := now }) := by
    unfold EditFile
    rw [if_neg (not_lt.mpr hcl), if_neg hf, hopen]
    simp only []
    rw [hexp]
    simp [hed]
  rw [heval]
  refine ⟨rfl, ?_, ?_, ?_, ?_⟩
  · simp [Save, hid0]
  · simp [Save, hid0, Serialize]
  · intro j hj
    simp [Save, hid0, hj]
  · intro w hw
    simp [Save, hw]

/-- Witness for C8 at a concrete store and edit request. -/
theorem editFile_frame_witness :
    (EditFile
        { seq := 1,
          files := fun i =>
            if i = 1 then StoredVal.valid ⟨"n", "old", "ap", "p", 3, 0, 0⟩
            else StoredVal.empty }
        { contentLength := 3, f := "new", name := "n", e := "", ap := "", ep := "p" }
        5).1 = 200 ∧
    (EditFile
        { seq := 1,
          files := fun i =>
            if i = 1 then StoredVal.valid ⟨"n", "old", "ap", "p", 3, 0, 0⟩
            else StoredVal.empty }
        { contentLength := 3, f := "new", name := "n", e := "", ap := "", ep := "p" }
        5).2.seq = 1 ∧
    (EditFile
        { seq := 1,
          files := fun i =>
            if i = 1 then StoredVal.valid ⟨"n", "old", "ap", "p", 3, 0, 0⟩
            else StoredVal.empty }
        { contentLength := 3, f := "new", name := "n", e := "", ap := "", ep := "p" }
        5).2.files 1 = StoredVal.valid ⟨"n", "new", "ap", "p", 3, 0, 5⟩ ∧
    (EditFile
        { seq := 1,
          files := fun i =>
            if i = 1 then StoredVal.valid ⟨"n", "old", "ap", "p", 3, 0, 0⟩
            else StoredVal.empty }
        { contentLength := 3, f := "new", name := "n", e := "", ap := "", ep := "p" }
        5).2.files 2 = StoredVal.empty := by
  have h := editFile_frame
    { seq := 1,
      files := fun i =>
        if i = 1 then StoredVal.valid ⟨"n", "old", "ap", "p", 3, 0, 0⟩
        else StoredVal.empty }
    { contentLength := 3, f := "new", name := "n", e := "", ap := "", ep := "p" }
    5 ⟨1, "n", "old", "ap", "p", 3, 0, 0⟩
    (by decide) (by decide) rfl rfl rfl
  exact ⟨h.1, h.2.1, h.2.2.1, h.2.2.2.1 2 (by decide)⟩

/-! ## C9: expiration precedes the access-password check on GET -/

/-- C9: when the name resolves to an expired record, `SendFile` answers 410
whatever access password the request carries — correct, wrong or absent —
because the expiration check runs before `AllowAccess`. -/
theorem sendFile_expired_gone (db : DB) (req : Request) (now : Int) (file : WpasteFile)
    (hopen : OpenWpasteByName db req.name = Except.ok (some file))
    (hexp : Expired file now = true) :
    SendFile db req now = (410, "410 - File is no longer available") := by
  unfold SendFile
  rw [hopen]
  simp only []
  rw [hexp]
  simp

/-- Witness for C9: an expired record guarded by access password "secret"
answers 410 to a GET carrying the *correct* password. -/
theorem sendFile_expired_gone_witness :
    SendFile
        { seq := 1,
          files := fun i =>
            if i = 1 then StoredVal.valid ⟨"n", "d", "secret", "", 0, 1, 0⟩
            else StoredVal.empty }
        { contentLength := 0, f := "", name := "n", e := "", ap := "secret", ep := "" }
        100 = (410, "410 - File is no longer available") := by
  exact sendFile_expired_gone _ _ 100 ⟨1, "n", "d", "secret", "", 0, 1, 0⟩ rfl (by decide)

/-! ## C10: deletion never consults the expiration predicate -/

/-- C10: `DeleteFile` checks only existence and edit authorization, so a
record that is expired but not yet reaped is deleted with status 200 when
the correct edit password is supplied; its key is removed and every other
key is untouched. -/
theorem deleteFile_ignores_expiration (db : DB) (req : Request) (now : Int)
    (file : WpasteFile)
    (hopen : OpenWpasteByName db req.name = Except.ok (some file))
    (_hexp : Expired file now = true)
    (hed : AllowEdit file req.ep = true) :
    (DeleteFile db req).1 = 200 ∧
    (DeleteFile db req).2.files file.id = StoredVal.empty ∧
    (∀ j, j ≠ file.id → (DeleteFile db req).2.files j = db.files j) := by
  have heval : DeleteFile db req = (200, DeleteWpaste db file.id) := by
    unfold DeleteFile
    rw [hopen]
    simp only []
    simp [hed]
  rw [heval]
  refine ⟨rfl, ?_, ?_⟩
  · simp [DeleteWpaste]
  · intro j hj
    simp [DeleteWpaste, hj]

/-- Witness for C10: an expired record (`ExpiresAfter = 1`, read at
`now = 100`) with edit password "p" is deleted with 200. -/
theorem deleteFile_ignores_expiration_witness :
    (DeleteFile
        { seq := 1,
          files := fun i =>
            if i = 1 then StoredVal.valid ⟨"n", "d", "", "p", 0, 1, 0⟩
            else StoredVal.empty }
        { contentLength := 0, f := "", name := "n", e := "", ap := "", ep := "p" }).1 = 200 ∧
    (DeleteFile
        { seq := 1,
          files := fun i =>
            if i = 1 then StoredVal.valid ⟨"n", "d", "", "p", 0, 1, 0⟩
            else StoredVal.empty }
        { contentLength := 0, f := "", name := "n", e := "", ap := "", ep := "p" }).2.files 1 =
      StoredVal.empty := by
  have h := deleteFile_ignores_expiration
    { seq := 1,
      files := fun i =>
        if i = 1 then StoredVal.valid ⟨"n", "d", "", "p", 0, 1, 0⟩
        else StoredVal.empty }
    { contentLength := 0, f := "", name := "n", e := "", ap := "", ep := "p" }
    100 ⟨1, "n", "d", "", "p", 0, 1, 0⟩ rfl (by decide) (by decide)
  exact ⟨h.1, h.2.1⟩
